import Mathlib

/-!
A Lean model of the `@prism/db` embedded document store: JSON documents,
the flexible path resolver, the predicate matcher, result shaping
(sort, skip/take, projection), update modifiers, and the filesystem
storage adapter, together with theorems about their behavior.

Documents and queries are JavaScript objects in the implementation; here
they are modelled as an inductive JSON value type, with objects as
association lists of string keys (JavaScript objects preserve insertion
order, which the matcher and projection rely on).  JSON numbers are
modelled as integers: every numeric literal exercised by the store's
documented behavior is integral, and no claim here depends on
floating-point rounding.
-/

set_option linter.unusedVariables false

namespace PrismDb

/-- A JSON value: the type of documents, query fragments and modifier
payloads. -/
inductive Json where
  | null
  | bool (b : Bool)
  | num (n : Int)
  | str (s : String)
  | arr (xs : List Json)
  | obj (fields : List (String × Json))
deriving Repr

/-- An object's fields: an ordered association list, as in JavaScript. -/
abbrev Fields := List (String × Json)

/-- A query is a JavaScript object: an ordered mapping from keys
(property names or combinators such as `$and`) to query values. -/
abbrev Query := List (String × Json)

mutual

/-- Modelled from the spec: deep structural equality of JSON values, used
by the matcher for literal equality comparisons (the matcher's source is
not part of the excerpted repository). -/
def jsonEq : Json → Json → Bool
  | .null, .null => true
  | .bool a, .bool b => a == b
  | .num a, .num b => a == b
  | .str a, .str b => a == b
  | .arr xs, .arr ys => jsonEqList xs ys
  | .obj fs, .obj gs => jsonEqFields fs gs
  | _, _ => false

/-- Elementwise deep equality of JSON arrays. -/
def jsonEqList : List Json → List Json → Bool
  | [], [] => true
  | x :: xs, y :: ys => jsonEq x y && jsonEqList xs ys
  | _, _ => false

/-- Fieldwise deep equality of JSON objects (order-sensitive, as a
structural comparison of the underlying lists). -/
def jsonEqFields : Fields → Fields → Bool
  | [], [] => true
  | (k1, v1) :: fs, (k2, v2) :: gs => k1 == k2 && jsonEq v1 v2 && jsonEqFields fs gs
  | _, _ => false

end

mutual

/-- Modelled from the spec: the Path Resolver's flexible/implicit lookup
(its source is not part of the excerpted repository).  Depth-first search
of the document for any property whose name equals the target, returning
the first match in document property order; `none` when the name occurs
nowhere. -/
def locate : Json → String → Option Json
  | .obj fields, k => locateFields fields k
  | .arr xs, k => locateList xs k
  | _, _ => none

/-- Depth-first search over an object's fields: a field whose key matches
wins; otherwise its value is searched before later siblings. -/
def locateFields : Fields → String → Option Json
  | [], _ => none
  | (k2, v) :: rest, k =>
    if k2 == k then some v
    else
      match locate v k with
      | some r => some r
      | none => locateFields rest k

/-- Depth-first search over the elements of an array. -/
def locateList : List Json → String → Option Json
  | [], _ => none
  | x :: rest, k =>
    match locate x k with
    | some r => some r
    | none => locateList rest k

end

/-- Modelled from the spec: the recognized comparison operator keys. -/
def isOpKey (k : String) : Bool :=
  k == "$gt" || k == "$gte" || k == "$lt" || k == "$lte" || k == "$eq" || k == "$ne"

/-- A query-value object is an operator mapping when all of its keys are
recognized comparison operators. -/
def allOps (vf : Fields) : Bool := vf.all (fun kv => isOpKey kv.1)

/-- Modelled from the spec: ordering comparison of two JSON values —
numeric for numbers, lexicographic for strings, and no ordering (`none`)
for any type-mismatched or non-ordered pair. -/
def cmpOrd : Json → Json → Option Ordering
  | .num a, .num b => some (compare a b)
  | .str a, .str b => some (compare a b)
  | _, _ => none

/-- Modelled from the spec: apply one comparison operator to the resolved
value `r` and the comparand `c`; type-mismatched ordering comparisons are
false, never an error. -/
def applyOp (op : String) (r : Json) (c : Json) : Bool :=
  if op == "$eq" then jsonEq r c
  else if op == "$ne" then !jsonEq r c
  else
    match cmpOrd r c with
    | none => false
    | some o =>
      if op == "$gt" then o == .gt
      else if op == "$gte" then o == .gt || o == .eq
      else if op == "$lt" then o == .lt
      else if op == "$lte" then o == .lt || o == .eq
      else false

/-- Conjunction of all operator clauses in an operator mapping. -/
def applyOps (r : Json) : Fields → Bool
  | [] => true
  | (op, c) :: rest => applyOp op r c && applyOps r rest

mutual

/-- Modelled from the spec: the Predicate Matcher's key-by-key
evaluation, with logical AND between sibling keys of the query mapping
(the matcher's source is not part of the excerpted repository). -/
def matchClauses : Json → Query → Bool
  | _, [] => true
  | d, (k, v) :: rest => matchClause d k v && matchClauses d rest
termination_by structural d q => q

/-- One query clause: `$and`/`$or` combinators over sub-query sequences,
or an ordinary property resolved through the flexible Path Resolver and
compared against a literal, an operator mapping, or a nested query. -/
def matchClause (d : Json) (k : String) (v : Json) : Bool :=
  if k == "$and" then
    match v with
    | .arr qs => allMatch d qs
    | _ => false
  else if k == "$or" then
    match v with
    | .arr qs => anyMatch d qs
    | _ => false
  else
    match locate d k with
    | none => false
    | some r =>
      match v with
      | .obj vf =>
        if allOps vf then applyOps r vf
        else
          match r with
          | .obj _ => matchClauses r vf
          | _ => false
      | _ => jsonEq r v
termination_by structural v

/-- `$and`: every sub-query matches (vacuously true when empty). -/
def allMatch : Json → List Json → Bool
  | _, [] => true
  | d, sq :: rest =>
    (match sq with
     | .obj f => matchClauses d f
     | _ => false) && allMatch d rest
termination_by structural d qs => qs

/-- `$or`: at least one sub-query matches (false when empty). -/
def anyMatch : Json → List Json → Bool
  | _, [] => false
  | d, sq :: rest =>
    (match sq with
     | .obj f => matchClauses d f
     | _ => false) || anyMatch d rest
termination_by structural d qs => qs

end

/-- Modelled from the spec: `matches(document, query)`, the Predicate
Matcher's entry point. -/
def docMatches (d : Json) (q : Query) : Bool := matchClauses d q

/-- The process-wide name of the reserved identifier property (default
`_id`), read once at collection construction. -/
def ID_KEY : String := "_id"

/-- Adjust a comparison result for the sort direction: `1` is ascending,
`0` and `-1` both mean descending. -/
def dirAdj (dir : Int) (c : Int) : Int := if dir == 1 then c else -c

/-- Ordering as a signed comparison integer. -/
def ordToInt : Ordering → Int
  | .lt => -1
  | .eq => 0
  | .gt => 1

/-- Value comparison for sorting: numeric or lexicographic when ordered,
`0` (tie) for non-ordered pairs. -/
def cmpVal (a b : Json) : Int :=
  match cmpOrd a b with
  | some o => ordToInt o
  | none => 0

/-- Modelled from the spec: one sort-key step of the comparator — resolve
the key on both documents through the flexible Path Resolver; a document
missing the key sorts as always-greater (placed last) regardless of
direction; otherwise the value comparison is direction-adjusted. -/
def cmpStep (k : String) (dir : Int) (d1 d2 : Json) : Int :=
  match locate d1 k, locate d2 k with
  | none, none => 0
  | none, some _ => 1
  | some _, none => -1
  | some v1, some v2 => dirAdj dir (cmpVal v1 v2)

/-- Modelled from the spec: the multi-key sort comparator — walk the sort
spec in key order, returning the first non-zero direction-adjusted
comparison. -/
def cmpDocs : List (String × Int) → Json → Json → Int
  | [], _, _ => 0
  | (k, dir) :: rest, d1, d2 =>
    let c := cmpStep k dir d1 d2
    if c == 0 then cmpDocs rest d1 d2 else c

/-- Insert a document into an already-sorted list, after any documents
that compare equal (so the overall sort is stable). -/
def insertSorted (cmp : Json → Json → Int) (x : Json) : List Json → List Json
  | [] => [x]
  | y :: ys => if cmp x y < 0 then x :: y :: ys else y :: insertSorted cmp x ys

/-- Modelled from the spec: stable sort of the result sequence by the
multi-key comparator. -/
def sortDocs (cmp : Json → Json → Int) (docs : List Json) : List Json :=
  docs.foldl (fun acc d => insertSorted cmp d acc) []

/-- Modelled from the spec: projection over an object's fields.  The mode
is determined by scanning the projection spec's values: all `1` keeps
only the listed properties plus the identifier; otherwise (all `0` or
mixed) the `0`-valued listed properties are removed; an empty spec is the
identity. -/
def projectFields (spec : List (String × Int)) (fields : Fields) : Fields :=
  if spec.isEmpty then fields
  else if spec.all (fun kv => kv.2 == 1) then
    fields.filter (fun f => f.1 == ID_KEY || spec.any (fun kv => kv.1 == f.1))
  else
    fields.filter (fun f => !(spec.any (fun kv => kv.1 == f.1 && kv.2 == 0)))

/-- Stated from the spec's words for inclusion mode, for comparison with
`projectFields`: the output contains every original property except the
listed `0`-valued ones. -/
def inclusionModeProject (spec : List (String × Int)) (fields : Fields) : Fields :=
  fields.filter (fun f => !(spec.any (fun kv => kv.1 == f.1 && kv.2 == 0)))

/-- Projection of a result document. -/
def projectDoc (spec : List (String × Int)) : Json → Json
  | .obj fields => .obj (projectFields spec fields)
  | d => d

/-- The options accepted by `find`/`update`/`remove`: sort spec,
projection spec, skip count and optional take count (joins are not
needed by any theorem below). -/
structure QueryOptions where
  sort : List (String × Int)
  project : List (String × Int)
  skip : Nat
  take : Option Nat

/-- The default options: no sorting, no projection, no windowing. -/
def noOpts : QueryOptions := ⟨[], [], 0, none⟩

/-- Skip the first `skip` documents, then limit to `take` when present. -/
def applySkipTake (skip : Nat) (take : Option Nat) (docs : List Json) : List Json :=
  match take with
  | none => docs.drop skip
  | some n => (docs.drop skip).take n

/-- Modelled from the spec: the Result Shaper — sort, then skip/take,
then projection, in that fixed order. -/
def shape (opts : QueryOptions) (docs : List Json) : List Json :=
  (applySkipTake opts.skip opts.take (sortDocs (cmpDocs opts.sort) docs)).map
    (projectDoc opts.project)

/-- Modelled from the spec: `find` — scan the collection, filter through
the Predicate Matcher, then shape the result sequence (the join stage,
not needed by any theorem below, is omitted). -/
def find (coll : List Json) (q : Query) (opts : QueryOptions) : List Json :=
  shape opts (coll.filter (fun d => docMatches d q))

/-- First binding of a key among an object's fields. -/
def lookupField : Fields → String → Option Json
  | [], _ => none
  | (k2, v) :: rest, k => if k2 == k then some v else lookupField rest k

/-- Replace the first binding of a key among an object's fields (identity
when the key is absent). -/
def replaceField : Fields → String → Json → Fields
  | [], _, _ => []
  | (k2, v) :: rest, k, nv =>
    if k2 == k then (k2, nv) :: rest else (k2, v) :: replaceField rest k nv

mutual

/-- Modelled from the spec: recursive deep merge — mapping-typed values
merge recursively, anything else overwrites the left value (the source of
`appendProps`, which `$merge` delegates to, is not part of the excerpted
repository). -/
def deepMerge : Json → Json → Json
  | .obj a, .obj b => .obj (mergeFields a b)
  | _, b => b
termination_by structural a b => b

/-- Merge the right-hand fields into the left-hand fields one by one:
an existing key has its value deep-merged, a new key is appended. -/
def mergeFields (a : Fields) : Fields → Fields
  | [] => a
  | (k, v) :: rest =>
    match lookupField a k with
    | some v2 => mergeFields (replaceField a k (deepMerge v2 v)) rest
    | none => mergeFields (a ++ [(k, v)]) rest
termination_by structural b => b

end

mutual

/-- Modelled from the spec: the nested path implied by the shape of the
originating query — the first query key whose value is a non-operator
mapping anchors the path, recursively; combinator and literal/operator
keys contribute nothing (the spec documents that the merge anchors only
to the first resolvable nested path). -/
def queryPath : Query → List String
  | [] => []
  | (k, v) :: rest =>
    match queryPathVal v with
    | some inner => k :: inner
    | none => queryPath rest
termination_by structural q => q

/-- The path below one query value: a non-operator mapping anchors a
nested path, anything else does not. -/
def queryPathVal : Json → Option (List String)
  | .obj vf => if allOps vf then none else some (queryPath vf)
  | _ => none
termination_by structural v => v

end

/-- Deep-merge a payload into a document at a nested path; when the path
cannot be followed, the merge anchors at the current value. -/
def mergeAtPath : Json → List String → Json → Json
  | d, [], m => deepMerge d m
  | d, k :: rest, m =>
    match d with
    | .obj fields =>
      match lookupField fields k with
      | some v => .obj (replaceField fields k (mergeAtPath v rest m))
      | none => deepMerge d m
    | _ => deepMerge d m

/-- Modelled from the spec: `appendProps(source, query, mod, true)` —
deep-merge the payload into the document at the location implied by the
shape of the originating query (its source is not part of the excerpted
repository; the deep flag, passed as `true` at the `$merge` call site, is
baked in). -/
def appendProps (source : Json) (query : Query) (mod : Json) : Json :=
  mergeAtPath source (queryPath query) mod

/-- Modelled from the spec: `ensureArray` — wrap a non-array value into a
one-element sequence, pass an array through unchanged (its source is not
part of the excerpted repository). -/
def ensureArray : Json → List Json
  | .arr xs => xs
  | v => [v]

/-- True exactly on JSON arrays. -/
def Json.isArr : Json → Bool
  | .arr _ => true
  | _ => false

/-- The `$merge` modifier operator, from `src/unnamed/part_000`: wrap the
payload value into a sequence with `ensureArray`, then fold `appendProps`
over the payloads in sequence order, threading the document through. -/
def dollarMerge (source : Json) (modifiers : Json) (query : Query) : Json :=
  (ensureArray modifiers).foldl (fun s mod => appendProps s query mod) source

mutual

/-- Replace the value at the first position the flexible Path Resolver
would find for a key; `none` when the key occurs nowhere. -/
def setAt : Json → String → Json → Option Json
  | .obj fields, k, nv => (setAtFields fields k nv).map Json.obj
  | .arr xs, k, nv => (setAtList xs k nv).map Json.arr
  | _, _, _ => none

/-- Depth-first replacement over an object's fields, mirroring
`locateFields`. -/
def setAtFields : Fields → String → Json → Option Fields
  | [], _, _ => none
  | (k2, v) :: rest, k, nv =>
    if k2 == k then some ((k2, nv) :: rest)
    else
      match setAt v k nv with
      | some v2 => some ((k2, v2) :: rest)
      | none =>
        match setAtFields rest k nv with
        | some rest2 => some ((k2, v) :: rest2)
        | none => none

/-- Depth-first replacement over the elements of an array, mirroring
`locateList`. -/
def setAtList : List Json → String → Json → Option (List Json)
  | [], _, _ => none
  | x :: rest, k, nv =>
    match setAt x k nv with
    | some x2 => some (x2 :: rest)
    | none =>
      match setAtList rest k nv with
      | some rest2 => some (x :: rest2)
      | none => none

end

/-- Modelled from the spec: `$inc` for one listed property — resolve the
property with the Path Resolver rules used for querying and add the
delta to the existing numeric value; when the property occurs nowhere,
create it at the top level with the delta as its initial value. -/
def incProp (d : Json) (k : String) (delta : Json) : Json :=
  match locate d k, delta with
  | some (.num n), .num dn =>
    match setAt d k (.num (n + dn)) with
    | some d2 => d2
    | none => d
  | some _, _ => d
  | none, _ =>
    match d with
    | .obj fields => .obj (fields ++ [(k, delta)])
    | _ => d

/-- Fold `incProp` over the `$inc` payload's listed properties. -/
def incEntries : Json → Fields → Json
  | d, [] => d
  | d, (k, delta) :: rest => incEntries (incProp d k delta) rest

/-- Modelled from the spec: the `$inc` modifier operator applied to its
per-property payload mapping. -/
def incApply (d : Json) (payload : Json) : Json :=
  match payload with
  | .obj entries => incEntries d entries
  | _ => d

/-- The modifier operator keys the Modifier Applier recognizes. -/
def isModifierKey (k : String) : Bool := k == "$inc" || k == "$merge"

/-- Modelled from the spec: dispatch one modifier operator key to its
implementation; an unrecognized key is a reported error naming the
offending key. -/
def applyModifier (d : Json) (k : String) (payload : Json) (q : Query) :
    Except String Json :=
  if k == "$inc" then .ok (incApply d payload)
  else if k == "$merge" then .ok (dollarMerge d payload q)
  else .error ("unrecognized modifier " ++ k)

/-- Modelled from the spec: apply a modifier set's keys in mapping order
to one document, each seeing the previous modifier's result; the first
error aborts. -/
def applyModifiers (d : Json) (mods : Fields) (q : Query) : Except String Json :=
  match mods with
  | [] => .ok d
  | (k, p) :: rest =>
    match applyModifier d k p q with
    | .ok d2 => applyModifiers d2 rest q
    | .error e => .error e

/-- Modelled from the spec: apply a modifier set to every document of the
collection that matches the query; the first error aborts the whole
operation. -/
def updateDocs : List Json → Query → Fields → Except String (List Json)
  | [], _, _ => .ok []
  | d :: ds, q, mods =>
    if docMatches d q then
      match applyModifiers d mods q with
      | .error e => .error e
      | .ok d2 =>
        match updateDocs ds q mods with
        | .error e => .error e
        | .ok ds2 => .ok (d2 :: ds2)
    else
      match updateDocs ds q mods with
      | .error e => .error e
      | .ok ds2 => .ok (d :: ds2)

/-- The collection state after an `update` call: the updated documents on
success, the untouched prior state when the operation reported an
error. -/
def updateRun (coll : List Json) (q : Query) (mods : Fields) : List Json :=
  match updateDocs coll q mods with
  | .ok coll2 => coll2
  | .error _ => coll

/-- The failure kinds of the storage adapter's read pipeline: the backing
file is absent (`readFileSync` throws) or its contents are unparseable
(`JSON.parse` throws). -/
inductive ReadErr where
  | fileMissing
  | parseFailure

/-- The state of the backing file: absent, present but corrupt
(unparseable), or present with parsed JSON contents. -/
inductive FileState where
  | absent
  | corrupt (raw : String)
  | stored (j : Json)

/-- JavaScript falsiness of a parsed JSON value, for the `|| {}` in
`FilesystemAdapter.read`. -/
def jsFalsy : Json → Bool
  | .null => true
  | .bool false => true
  | .num 0 => true
  | .str "" => true
  | _ => false

/-- What `Object.assign({}, v)` yields for a parsed value `v`: an
object's own fields, an array's or string's indexed elements, and no
fields for any other primitive. -/
def objAssign : Json → Fields
  | .obj fs => fs
  | .arr xs => xs.enum.map (fun iv => (Nat.repr iv.1, iv.2))
  | .str s => s.data.enum.map (fun ic => (Nat.repr ic.1, Json.str (String.mk [ic.2])))
  | _ => []

namespace FilesystemAdapter

/-- The try-block of `FilesystemAdapter.read` in `src/src/fs_adapter.ts`:
read the backing file (throws when absent), parse it (throws when
corrupt), replace a falsy parse result by `{}`, and copy the result's
fields with `Object.assign`. -/
def readBody : FileState → Except ReadErr Fields
  | .absent => .error .fileMissing
  | .corrupt _ => .error .parseFailure
  | .stored j => .ok (objAssign (if jsFalsy j then Json.obj [] else j))

/-- `FilesystemAdapter.read` from `src/src/fs_adapter.ts`: the try-block
wrapped in the catch-all that replaces any failure by the empty mapping;
by construction no exception escapes to the caller. -/
def read (fs : FileState) : Fields :=
  match readBody fs with
  | .ok data => data
  | .error _ => []

/-- The adapter's mutable state: the `SimpleFIFO` queue of pending write
payloads (each queued entry pairs the payload with a closure that writes
it to the backing file) and the backing file itself. -/
structure AdapterState where
  queue : List Fields
  file : FileState

/-- Execute one queued job: `writeJSON` serializes the payload and
replaces the backing file with it. -/
def runJob (data : Fields) : FileState → FileState :=
  fun _ => .stored (.obj data)

/-- The `while (this.queue.length())` loop of `write`: shift the front
job off the queue and execute it, until the queue is empty. -/
def drainLoop : List Fields → FileState → AdapterState
  | [], f => ⟨[], f⟩
  | d :: rest, f => drainLoop rest (runJob d f)

/-- `FilesystemAdapter.write` from `src/src/fs_adapter.ts`: push the
payload (with its writer closure) onto the queue, then drain the queue
synchronously before returning. -/
def write (s : AdapterState) (data : Fields) : AdapterState :=
  drainLoop (s.queue ++ [data]) s.file

/-- A plain synchronous single write of the full mapping: what the
queue-based `write` is claimed to be equivalent to. -/
def writeDirect (data : Fields) : FileState := .stored (.obj data)

end FilesystemAdapter

/-! Concrete documents used by the behavioral theorems, taken from the
store's documented examples. -/

/-- The Mercury planet document from the store's documented examples. -/
def mercury : Json :=
  .obj [("planet", .str "Mercury"), ("diameter", .num 4880),
        ("temp", .obj [("avg", .num 475)])]

/-- The Venus planet document from the store's documented examples. -/
def venus : Json :=
  .obj [("planet", .str "Venus"), ("diameter", .num 12104),
        ("temp", .obj [("avg", .num 737000)])]

/-- The Earth planet document from the store's documented examples. -/
def earth : Json :=
  .obj [("planet", .str "Earth"), ("diameter", .num 12742),
        ("temp", .obj [("avg", .num 288)])]

/-- The planets collection from the store's documented examples. -/
def planets : List Json := [mercury, venus, earth]

/-- First of the three skip/take example documents. -/
def sdoc1 : Json := .obj [("a", .num 1), ("b", .num 1), ("c", .num 1)]

/-- Second of the three skip/take example documents. -/
def sdoc2 : Json := .obj [("a", .num 2), ("b", .num 2), ("c", .num 2)]

/-- Third of the three skip/take example documents. -/
def sdoc3 : Json := .obj [("a", .num 3), ("b", .num 3), ("c", .num 3)]

/-- A recognized modifier key never produces an error from the
dispatcher. -/
theorem applyModifier_recognized_ok (d : Json) (k : String) (p : Json) (q : Query)
    (h : isModifierKey k = true) : ∃ d2, applyModifier d k p q = .ok d2 := by
  by_cases h1 : (k == "$inc") = true
  · exact ⟨incApply d p, by simp [applyModifier, h1]⟩
  · have h2 : (k == "$merge") = true := by
      simp only [isModifierKey] at h
      simp only [Bool.or_eq_true] at h
      rcases h with h | h
      · exact absurd h h1
      · exact h
    exact ⟨dollarMerge d p q, by simp [applyModifier, h1, h2]⟩

/-- When the modifier set contains an unrecognized key, folding the
modifier set over a document reports an error naming an unrecognized key
of the set. -/
theorem applyModifiers_error_of_bad (d : Json) (mods : Fields) (q : Query)
    (h : ∃ kp ∈ mods, isModifierKey kp.1 = false) :
    ∃ k p, (k, p) ∈ mods ∧ isModifierKey k = false ∧
      applyModifiers d mods q = .error ("unrecognized modifier " ++ k) := by
  induction mods generalizing d with
  | nil =>
    obtain ⟨kp, hmem, _⟩ := h
    exact absurd hmem (List.not_mem_nil _)
  | cons hd rest ih =>
    obtain ⟨k0, p0⟩ := hd
    cases hk0 : isModifierKey k0 with
    | false =>
      have hinc : ¬ (k0 == "$inc") = true := by
        intro hc
        simp [isModifierKey, hc] at hk0
      have hmrg : ¬ (k0 == "$merge") = true := by
        intro hc
        simp [isModifierKey, hc] at hk0
      refine ⟨k0, p0, List.mem_cons_self _ _, hk0, ?_⟩
      simp [applyModifiers, applyModifier, hinc, hmrg]
    | true =>
      obtain ⟨d2, hd2⟩ := applyModifier_recognized_ok d k0 p0 q hk0
      obtain ⟨kp, hmem, hbad⟩ := h
      rcases List.mem_cons.mp hmem with heq | hmem2
      · rw [heq] at hbad
        rw [hbad] at hk0
        exact absurd hk0 (by decide)
      · obtain ⟨k, p, hm, hb, he⟩ := ih d2 ⟨kp, hmem2, hbad⟩
        refine ⟨k, p, List.mem_cons_of_mem _ hm, hb, ?_⟩
        simp [applyModifiers, hd2, he]

/-- When some document matches and the modifier set contains an
unrecognized key, the whole update pass reports an error naming an
unrecognized key. -/
theorem updateDocs_error_of_bad (coll : List Json) (q : Query) (mods : Fields)
    (hmatch : ∃ d ∈ coll, docMatches d q = true)
    (hbad : ∃ kp ∈ mods, isModifierKey kp.1 = false) :
    ∃ k, isModifierKey k = false ∧ (∃ p, (k, p) ∈ mods) ∧
      updateDocs coll q mods = .error ("unrecognized modifier " ++ k) := by
  induction coll with
  | nil =>
    obtain ⟨d, hmem, _⟩ := hmatch
    exact absurd hmem (List.not_mem_nil _)
  | cons c rest ih =>
    cases hc : docMatches c q with
    | true =>
      obtain ⟨k, p, hmem, hbadk, herr⟩ := applyModifiers_error_of_bad c mods q hbad
      exact ⟨k, hbadk, ⟨p, hmem⟩, by simp [updateDocs, hc, herr]⟩
    | false =>
      obtain ⟨d, hmem, hdm⟩ := hmatch
      rcases List.mem_cons.mp hmem with heq | hmem2
      · rw [heq] at hdm
        rw [hdm] at hc
        exact absurd hc (by decide)
      · obtain ⟨k, hbadk, hp, herr2⟩ := ih ⟨d, hmem2, hdm⟩
        exact ⟨k, hbadk, hp, by simp [updateDocs, hc, herr2]⟩

/-- Draining a queue that ends with payload `d` leaves an empty queue and
the backing file holding exactly `d`. -/
theorem drainLoop_append_single (q : List Fields) (d : Fields) :
    ∀ f, FilesystemAdapter.drainLoop (q ++ [d]) f =
      ⟨[], FilesystemAdapter.writeDirect d⟩ := by
  induction q with
  | nil => intro f; rfl
  | cons x rest ih => intro f; exact ih (FilesystemAdapter.runJob x f)

/-- C1: the claim states that a failed load surfaces a distinct error
kind and never silently returns an empty mapping.  This closed
counterexample refutes it on the code: on a concrete corrupt backing
file the try-block fails with a parse error, yet `read` returns the
empty mapping with no error reaching the caller. -/
theorem read_corrupt_silent_empty_cex :
    FilesystemAdapter.readBody (.corrupt "not json") = .error .parseFailure ∧
    FilesystemAdapter.read (.corrupt "not json") = [] :=
  ⟨rfl, rfl⟩

/-- C1 (amended): whenever loading the backing representation fails (the
file is absent or corrupt), `read` catches the failure internally and
returns the empty mapping; no distinct error kind is surfaced to the
caller. -/
theorem read_catches_failures (fs : FileState) (e : ReadErr)
    (h : FilesystemAdapter.readBody fs = .error e) :
    FilesystemAdapter.read fs = [] := by
  unfold FilesystemAdapter.read
  rw [h]

/-- Witness for the amended C1 theorem at the absent-file state. -/
theorem read_catches_failures_witness :
    FilesystemAdapter.readBody .absent = .error .fileMissing ∧
    FilesystemAdapter.read .absent = [] :=
  ⟨rfl, read_catches_failures .absent .fileMissing rfl⟩

/-- C2: for every state of the backing file, `read` tolerates an absent
or corrupt (unparseable) file by returning an empty mapping; by
construction of `read` (the catch-all around `readBody`) no exception
propagates to the caller. -/
theorem read_tolerates_absent_and_corrupt :
    FilesystemAdapter.read .absent = [] ∧
    ∀ raw : String, FilesystemAdapter.read (.corrupt raw) = [] :=
  ⟨rfl, fun _ => rfl⟩

/-- C3: for the documented nested document `{temp: {avg: 475}}`, querying
by the bare inner property name and querying by the explicit nested path
return the same document, because bare-name resolution depth-first
searches the whole document tree. -/
theorem find_flexible_and_nested_same_document :
    find planets [("avg", .num 475)] noOpts = [mercury] ∧
    find planets [("temp", .obj [("avg", .num 475)])] noOpts = [mercury] :=
  ⟨rfl, rfl⟩

/-- C4: every document matches the empty query, the empty `$and`
conjunction is vacuously true, and the empty `$or` disjunction is
false. -/
theorem matches_empty_and_empty_combinators (d : Json) :
    docMatches d [] = true ∧
    docMatches d [("$and", .arr [])] = true ∧
    docMatches d [("$or", .arr [])] = false :=
  ⟨rfl, rfl, rfl⟩

/-- C5: a projection spec mixing 1-valued and 0-valued properties behaves
exactly as inclusion mode — the 0-valued listed properties are removed
and every other property is kept — and in particular `project:{b:1,c:0}`
on `{_id,a,b,c}` yields `{_id,a,b}`. -/
theorem mixed_projection_is_inclusion_mode (spec : List (String × Int)) (fields : Fields)
    (h1 : ∃ kv ∈ spec, kv.2 = 1) (h0 : ∃ kv ∈ spec, kv.2 = 0) :
    projectFields spec fields = inclusionModeProject spec fields ∧
    projectDoc [("b", 1), ("c", 0)]
        (.obj [("_id", .num 7), ("a", .num 1), ("b", .num 2), ("c", .num 3)]) =
      .obj [("_id", .num 7), ("a", .num 1), ("b", .num 2)] := by
  refine ⟨?_, rfl⟩
  obtain ⟨kv0, hm0, hv0⟩ := h0
  have hne : spec.isEmpty = false := by
    cases spec with
    | nil => exact absurd hm0 (List.not_mem_nil _)
    | cons a l => rfl
  cases hall : spec.all (fun kv => kv.2 == 1) with
  | true =>
    have h2 : (kv0.2 == 1) = true := List.all_eq_true.mp hall kv0 hm0
    rw [hv0] at h2
    exact absurd h2 (by decide)
  | false =>
    simp [projectFields, inclusionModeProject, hne, hall]

/-- Witness for C5 at a concrete mixed projection spec. -/
theorem mixed_projection_is_inclusion_mode_witness :
    (∃ kv ∈ [("b", (1 : Int)), ("c", 0)], kv.2 = 1) ∧
    (∃ kv ∈ [("b", (1 : Int)), ("c", 0)], kv.2 = 0) ∧
    (projectFields [("b", 1), ("c", 0)] [("a", Json.num 5)] =
       inclusionModeProject [("b", 1), ("c", 0)] [("a", Json.num 5)] ∧
     projectDoc [("b", 1), ("c", 0)]
         (.obj [("_id", .num 7), ("a", .num 1), ("b", .num 2), ("c", .num 3)]) =
       .obj [("_id", .num 7), ("a", .num 1), ("b", .num 2)]) :=
  ⟨⟨("b", 1), by simp, rfl⟩, ⟨("c", 0), by simp, rfl⟩,
   mixed_projection_is_inclusion_mode _ _ ⟨("b", 1), by simp, rfl⟩
     ⟨("c", 0), by simp, rfl⟩⟩

/-- C6: result shaping applies sort, then skip/take, then projection.
On three matching documents inserted out of order, sorting by `b`,
windowing with `{skip:1, take:1}` and projecting `b` away returns
exactly the second-by-`b` document without its sort key — which requires
exactly this stage order — and `{skip:1, take:1}` over three ordered
matches returns exactly the second. -/
theorem shape_order_sort_skiptake_project :
    find [sdoc3, sdoc1, sdoc2] [("a", .obj [("$gt", .num 0)])]
        ⟨[("b", 1)], [("b", 0)], 1, some 1⟩ =
      [.obj [("a", .num 2), ("c", .num 2)]] ∧
    find [sdoc1, sdoc2, sdoc3] [("a", .obj [("$gt", .num 0)])]
        ⟨[], [], 1, some 1⟩ = [sdoc2] :=
  ⟨rfl, rfl⟩

/-- C7: `$merge` applies its payload sequence as a left fold — the empty
sequence returns the document unchanged, a head payload is deep-merged
(at the location implied by the originating query's shape) into the
document before the remaining payloads, and splitting the sequence
composes: merging `ms1 ++ ms2` equals merging `ms2` into the result of
merging `ms1`. -/
theorem merge_fold_semantics (d : Json) (q : Query) (m : Json) (ms ms1 ms2 : List Json) :
    dollarMerge d (.arr []) q = d ∧
    dollarMerge d (.arr (m :: ms)) q = dollarMerge (appendProps d q m) (.arr ms) q ∧
    dollarMerge d (.arr (ms1 ++ ms2)) q =
      dollarMerge (dollarMerge d (.arr ms1) q) (.arr ms2) q := by
  refine ⟨rfl, rfl, ?_⟩
  simp [dollarMerge, ensureArray, List.foldl_append]

/-- C8: an update invoked with an unrecognized modifier operator key
reports an error naming an offending key, and the collection state after
the failed call equals the state before it. -/
theorem update_unrecognized_modifier_aborts (coll : List Json) (q : Query) (mods : Fields)
    (hmatch : ∃ d ∈ coll, docMatches d q = true)
    (hbad : ∃ kp ∈ mods, isModifierKey kp.1 = false) :
    (∃ k, isModifierKey k = false ∧ (∃ p, (k, p) ∈ mods) ∧
      updateDocs coll q mods = .error ("unrecognized modifier " ++ k)) ∧
    updateRun coll q mods = coll := by
  obtain ⟨k, h1, h2, h3⟩ := updateDocs_error_of_bad coll q mods hmatch hbad
  refine ⟨⟨k, h1, h2, h3⟩, ?_⟩
  unfold updateRun
  rw [h3]

/-- Witness for C8 at a concrete collection, query and modifier set. -/
theorem update_unrecognized_modifier_aborts_witness :
    (∃ d ∈ [Json.obj [("a", Json.num 1)]], docMatches d [("a", Json.num 1)] = true) ∧
    (∃ kp ∈ [("$bogus", Json.num 1)], isModifierKey kp.1 = false) ∧
    ((∃ k, isModifierKey k = false ∧ (∃ p, (k, p) ∈ [("$bogus", Json.num 1)]) ∧
        updateDocs [Json.obj [("a", Json.num 1)]] [("a", Json.num 1)]
          [("$bogus", Json.num 1)] = .error ("unrecognized modifier " ++ k)) ∧
     updateRun [Json.obj [("a", Json.num 1)]] [("a", Json.num 1)]
         [("$bogus", Json.num 1)] = [Json.obj [("a", Json.num 1)]]) :=
  ⟨⟨Json.obj [("a", Json.num 1)], by simp, rfl⟩,
   ⟨("$bogus", Json.num 1), by simp, rfl⟩,
   update_unrecognized_modifier_aborts _ _ _
     ⟨Json.obj [("a", Json.num 1)], by simp, rfl⟩
     ⟨("$bogus", Json.num 1), by simp, rfl⟩⟩

/-- C9: the storage adapter's `write` is a plain synchronous single
write — after any call the internal queue is empty and the backing file
holds exactly the written mapping, with no deferred work remaining. -/
theorem write_drains_queue_single_write (s : FilesystemAdapter.AdapterState)
    (data : Fields) :
    (FilesystemAdapter.write s data).queue = [] ∧
    (FilesystemAdapter.write s data).file = FilesystemAdapter.writeDirect data := by
  unfold FilesystemAdapter.write
  rw [drainLoop_append_single s.queue data s.file]
  exact ⟨rfl, rfl⟩

/-- C10: a single non-array `$merge` payload is wrapped by `ensureArray`
into a one-element sequence, so a bare payload and its singleton list
are interchangeable. -/
theorem merge_scalar_payload_wrapped (d : Json) (q : Query) (m : Json)
    (h : m.isArr = false) :
    dollarMerge d m q = dollarMerge d (.arr [m]) q := by
  cases m <;> simp_all [Json.isArr, dollarMerge, ensureArray]

/-- Witness for C10 at a concrete object payload. -/
theorem merge_scalar_payload_wrapped_witness :
    Json.isArr (.obj [("x", Json.num 1)]) = false ∧
    dollarMerge (.obj []) (.obj [("x", Json.num 1)]) [] =
      dollarMerge (.obj []) (.arr [.obj [("x", Json.num 1)]]) [] :=
  ⟨rfl, merge_scalar_payload_wrapped _ _ _ rfl⟩

end PrismDb
